import Mathlib

/-!
Verification development for the playwright-gcp repository.

Part I models the change-set engine and the test-run orchestrator of the
FastAPI backend.  Its implementation files are not part of the reviewed
sources (only the API documentation that specifies it is), so the
definitions in namespace `Engine` are modelled from the spec, as their
doc comments state.

Part II embeds the Express project routes
(`playwright-crx-enhanced/backend/src/routes/project.routes.ts`), which
are present in the sources, as pure state-passing functions.
-/

namespace Engine

/-- Modelled from the spec: lifecycle states of a `ScriptChangeSet`
(section 3 of the spec: status in proposed, accepted, rejected). -/
inductive CsStatus where
  | proposed
  | accepted
  | rejected
deriving DecidableEq, Repr

/-- Modelled from the spec: lifecycle states of a `TestRun`
(section 3: status in queued, running, passed, failed, cancelled). -/
inductive RunStatus where
  | queued
  | running
  | passed
  | failed
  | cancelled
deriving DecidableEq, Repr

/-- Modelled from the spec: the `Script` row of the missing FastAPI data
model, `Script(id, project_id, title, content, ...)`. -/
structure Script where
  id : Nat
  projectId : Nat
  title : String
  content : String
deriving DecidableEq, Repr

/-- Modelled from the spec: the `ScriptRevision` row,
`ScriptRevision(id, script_id, version, diff, applied_by, ...)`. -/
structure ScriptRevision where
  id : Nat
  scriptId : Nat
  version : Nat
  diff : String
  appliedBy : Nat
deriving DecidableEq, Repr

/-- Modelled from the spec: the `ScriptChangeSet` row,
`ScriptChangeSet(id, script_id, proposed_diff, ai_model, confidence,
status, ...)`.  Confidence is kept as thousandths. -/
structure ScriptChangeSet where
  id : Nat
  scriptId : Nat
  proposedDiff : String
  aiModel : String
  confidence : Nat
  status : CsStatus
deriving DecidableEq, Repr

/-- Modelled from the spec: the `TestRun` row,
`TestRun(id, script_id, environment, browser, status, ...)`. -/
structure TestRun where
  id : Nat
  scriptId : Nat
  environment : String
  browser : String
  status : RunStatus
deriving DecidableEq, Repr

/-- Modelled from the spec: the `AIInsight` row,
`AIInsight(id, script_id, type, severity, summary, ...)`. -/
structure AIInsight where
  id : Nat
  scriptId : Nat
  category : String
  severity : String
  summary : String
deriving DecidableEq, Repr

/-- Modelled from the spec: the relational store backing the missing
FastAPI backend, holding all five tables plus an id source for new
revisions. -/
structure EngineState where
  scripts : List Script
  revisions : List ScriptRevision
  changesets : List ScriptChangeSet
  runs : List TestRun
  insights : List AIInsight
  nextRevId : Nat
deriving DecidableEq, Repr

/-- Modelled from the spec: the error taxonomy of section 7
(NotFound, InvalidState per entity, upstream failure). -/
inductive DomainErr where
  | scriptNotFound
  | runNotFound
  | invalidChangesetState
  | invalidRunState
  | aiProviderError
deriving DecidableEq, Repr

/-- Look a script up by id. -/
def findScript (st : EngineState) (sid : Nat) : Option Script :=
  st.scripts.find? (fun s => s.id == sid)

/-- Look a change-set up by id. -/
def findChangeset (st : EngineState) (cid : Nat) : Option ScriptChangeSet :=
  st.changesets.find? (fun c => c.id == cid)

/-- Look a test run up by id. -/
def findRun (st : EngineState) (rid : Nat) : Option TestRun :=
  st.runs.find? (fun r => r.id == rid)

/-- The version numbers of the revisions of one script, newest first. -/
def versionsFor (st : EngineState) (sid : Nat) : List Nat :=
  (st.revisions.filter (fun r => r.scriptId == sid)).map (fun r => r.version)

/-- Modelled from the spec: the previous maximum revision version of a
script, 0 when the script has no revision yet. -/
def maxRevVersion (st : EngineState) (sid : Nat) : Nat :=
  (versionsFor st sid).foldr max 0

/-- The per-script revision history invariant: for every script the
list of revision versions, newest first, is strictly decreasing — the
versions are strictly increasing in creation order and never reused. -/
def revisionsInvariant (st : EngineState) : Prop :=
  ∀ sid : Nat, List.Chain' (· > ·) (versionsFor st sid)

/-- Modelled from the spec: `accept(changeset_id)` of the missing
change-set engine (spec section 4.1 and the documented router
`accept_changeset`): requires the change-set to exist and be `proposed`,
otherwise fails with `InvalidChangesetState`; on success creates one
revision with version = previous max + 1, rewrites the script content by
applying the diff, and flips the change-set status to `accepted`, all in
one step.  The diff applier is the opaque external collaborator, passed
in as a function. -/
def acceptChangeset (applyDiff : String → String → String)
    (st : EngineState) (cid uid : Nat) :
    EngineState × Except DomainErr ScriptRevision :=
  match st.changesets.find? (fun c => c.id == cid) with
  | none => (st, .error .invalidChangesetState)
  | some cs =>
    if cs.status = .proposed then
      match st.scripts.find? (fun s => s.id == cs.scriptId) with
      | none => (st, .error .scriptNotFound)
      | some s =>
        let v := maxRevVersion st cs.scriptId + 1
        let rev : ScriptRevision :=
          ⟨st.nextRevId, cs.scriptId, v, cs.proposedDiff, uid⟩
        let newContent := applyDiff cs.proposedDiff s.content
        ({ st with
            scripts := st.scripts.map (fun x =>
              if x.id == cs.scriptId then { x with content := newContent } else x),
            revisions := rev :: st.revisions,
            changesets := st.changesets.map (fun c =>
              if c.id == cid then { c with status := .accepted } else c),
            nextRevId := st.nextRevId + 1 },
         .ok rev)
    else (st, .error .invalidChangesetState)

/-- Modelled from the spec: `reject(changeset_id)` (spec section 4.1):
requires `proposed`, otherwise fails with `InvalidChangesetState`; flips
the status to `rejected` and does nothing else. -/
def rejectChangeset (st : EngineState) (cid : Nat) :
    EngineState × Except DomainErr Unit :=
  match st.changesets.find? (fun c => c.id == cid) with
  | none => (st, .error .invalidChangesetState)
  | some cs =>
    if cs.status = .proposed then
      ({ st with
          changesets := st.changesets.map (fun c =>
            if c.id == cid then { c with status := .rejected } else c) },
       .ok ())
    else (st, .error .invalidChangesetState)

/-- Modelled from the spec: `start(script, environment, browser)` of the
test-run orchestrator (spec section 4.2): fails with `ScriptNotFound`
when the script is missing, otherwise creates a run in `queued` state. -/
def startRun (st : EngineState) (newId sid : Nat) (env browser : String) :
    EngineState × Except DomainErr TestRun :=
  match st.scripts.find? (fun s => s.id == sid) with
  | none => (st, .error .scriptNotFound)
  | some _ =>
    let run : TestRun := ⟨newId, sid, env, browser, .queued⟩
    ({ st with runs := run :: st.runs }, .ok run)

/-- Modelled from the spec: `status(run_id)` (spec section 4.2): returns
the current snapshot of the run and never blocks. -/
def runStatus (st : EngineState) (rid : Nat) :
    EngineState × Option TestRun :=
  (st, st.runs.find? (fun r => r.id == rid))

/-- Modelled from the spec: `list(script_id)` of the insight aggregator
(spec section 4.3): read-only listing of the insights of one script. -/
def listInsights (st : EngineState) (sid : Nat) :
    EngineState × List AIInsight :=
  (st, st.insights.filter (fun i => i.scriptId == sid))

/-- Modelled from the spec: `GET /scripts` of the missing FastAPI
scripts router (spec section 6 and the documented endpoint `List
scripts for current user/project`): a read-only listing of the scripts
of one project. -/
def listScripts (st : EngineState) (pid : Nat) :
    EngineState × List Script :=
  (st, st.scripts.filter (fun s => s.projectId == pid))

/-- Modelled from the spec: whether a run status is terminal
(spec section 4.2: passed, failed, cancelled are terminal). -/
def isTerminalRun : RunStatus → Bool
  | .passed => true
  | .failed => true
  | .cancelled => true
  | _ => false

/-- Modelled from the spec: the transition relation of the test-run
state machine, queued to running to passed or failed, and queued or
running to cancelled (spec section 4.2). -/
def runStatusStep : RunStatus → RunStatus → Bool
  | .queued, .running => true
  | .running, .passed => true
  | .running, .failed => true
  | .queued, .cancelled => true
  | .running, .cancelled => true
  | _, _ => false

/-- Modelled from the spec: `cancel(run_id)` (spec section 4.2):
transitions queued or running to cancelled; fails with `InvalidRunState`
when the run is already terminal. -/
def cancelRun (st : EngineState) (rid : Nat) :
    EngineState × Except DomainErr TestRun :=
  match st.runs.find? (fun r => r.id == rid) with
  | none => (st, .error .runNotFound)
  | some r =>
    if r.status = .queued ∨ r.status = .running then
      let r2 : TestRun := { r with status := .cancelled }
      ({ st with runs := st.runs.map (fun x => if x.id == rid then r2 else x) },
       .ok r2)
    else (st, .error .invalidRunState)

/-- Whether an `Except` result is a success. -/
def exceptOk : Except DomainErr α → Bool
  | .ok _ => true
  | .error _ => false

end Engine

namespace ExpressApi

/-- A small JSON value type for the bodies the Express routes build. -/
inductive Json where
  | null
  | bool (b : Bool)
  | num (n : Int)
  | str (s : String)
  | arr (xs : List Json)
  | obj (fields : List (String × Json))

/-- Field lookup on a JSON object, `none` on any other value. -/
def Json.getField : Json → String → Option Json
  | .obj fs, k => (fs.find? (fun p => p.1 == k)).map Prod.snd
  | _, _ => none

/-- Whether a JSON value is a string. -/
def Json.isStr : Json → Bool
  | .str _ => true
  | _ => false

/-- Whether a JSON value is an object. -/
def Json.isObj : Json → Bool
  | .obj _ => true
  | _ => false

/-- JavaScript falsiness of a JSON value (the request body fields the
routes test with `!x`): null, false, 0 and the empty string are falsy. -/
def jsFalsy : Json → Bool
  | .null => true
  | .bool b => !b
  | .num n => n == 0
  | .str s => s == ""
  | _ => false

/-- A row of the `Project` table as the Express backend stores it
(`project.routes.ts`: id, name, description, userId, createdAt,
updatedAt; `description` keeps whatever JSON the client sent, with falsy
values stored as null by `description || null`). -/
structure Project where
  id : String
  name : String
  description : Json
  userId : String
  createdAt : Int
  updatedAt : Int

/-- The database state the project routes touch: the `Project` table
plus the clock that `now()` reads. -/
structure DbState where
  projects : List Project
  now : Int

/-- An HTTP response: status code and JSON body. -/
structure Response where
  status : Nat
  body : Json

/-- The row shape the routes return: the SELECT and RETURNING column
lists are id, name, description, createdAt, updatedAt. -/
def Project.toRow (p : Project) : Json :=
  .obj [("id", .str p.id), ("name", .str p.name),
        ("description", p.description),
        ("createdAt", .num p.createdAt), ("updatedAt", .num p.updatedAt)]

/-- `GET /projects` (`router.get` on the collection in
`project.routes.ts`): 401 when the auth middleware left no truthy
userId, 500 with a fixed message when the storage layer throws (the
`dbFail` parameter carries the raw exception text), otherwise 200 with
the caller's projects ordered by createdAt descending. -/
def getProjects (user : Option String) (dbFail : Option String)
    (st : DbState) : DbState × Response :=
  match user with
  | none => (st, ⟨401, .obj [("error", .str "Unauthorized")]⟩)
  | some u =>
    if u == "" then (st, ⟨401, .obj [("error", .str "Unauthorized")]⟩)
    else
      match dbFail with
      | some _ => (st, ⟨500, .obj [("error", .str "Failed to fetch projects")]⟩)
      | none =>
        let rows :=
          ((st.projects.filter (fun p => p.userId == u)).insertionSort
              (fun a b => b.createdAt ≤ a.createdAt)).map Project.toRow
        (st, ⟨200, .obj [("data", .arr rows)]⟩)

/-- The request body of `POST /projects`: the two fields the handler
reads, each absent or any JSON value. -/
structure CreateBody where
  name : Option Json
  description : Option Json

/-- The validation test of `POST /projects` on the `name` field, as
written in the source:
`!name || typeof name !== 'string' || name.trim().length === 0`. -/
def nameInvalid : Option Json → Bool
  | none => true
  | some j =>
    jsFalsy j || !j.isStr ||
      (match j with
       | .str s => s.trim.length == 0
       | _ => false)

/-- `POST /projects` (`router.post` in `project.routes.ts`): 401 without
a truthy userId, 400 when `nameInvalid` holds, 500 with a fixed message
when the INSERT throws, otherwise inserts a row with the trimmed name
(and the description, falsy coerced to null) and answers 201 with the
returned row.  `newId` stands for the `randomUUID()` call. -/
def createProject (user : Option String) (body : CreateBody)
    (newId : String) (dbFail : Option String) (st : DbState) :
    DbState × Response :=
  match user with
  | none => (st, ⟨401, .obj [("error", .str "Unauthorized")]⟩)
  | some u =>
    if u == "" then (st, ⟨401, .obj [("error", .str "Unauthorized")]⟩)
    else
      if nameInvalid body.name then
        (st, ⟨400, .obj [("error", .str "Project name is required")]⟩)
      else
        match dbFail with
        | some _ => (st, ⟨500, .obj [("error", .str "Failed to create project")]⟩)
        | none =>
          let nm := match body.name with
            | some (.str s) => s.trim
            | _ => ""
          let desc := match body.description with
            | none => Json.null
            | some d => if jsFalsy d then Json.null else d
          let p : Project := ⟨newId, nm, desc, u, st.now, st.now⟩
          ({ st with projects := p :: st.projects },
           ⟨201, .obj [("data", p.toRow)]⟩)

/-- `GET /projects/:id` (`router.get` on one id in `project.routes.ts`):
this handler performs no explicit auth check on userId beyond using it
in the WHERE clause, so an absent userId simply matches no row; 500 with
a fixed message when the storage layer throws, 404 when no row matches,
otherwise 200 with the row. -/
def getProject (user : Option String) (pid : String)
    (dbFail : Option String) (st : DbState) : DbState × Response :=
  match dbFail with
  | some _ => (st, ⟨500, .obj [("error", .str "Failed to fetch project")]⟩)
  | none =>
    match st.projects.find? (fun p =>
        p.id == pid &&
          (match user with | some u => p.userId == u | none => false)) with
    | none => (st, ⟨404, .obj [("error", .str "Project not found")]⟩)
    | some p => (st, ⟨200, .obj [("data", p.toRow)]⟩)

/-- `PUT /projects/:id` (`router.put` in `project.routes.ts`): like the
single-project GET it has no explicit auth guard, the userId only
appears in the WHERE clause; 500 with a fixed message when the storage
layer throws, 404 when no row matches, otherwise rewrites the matching
row's name, description (falsy coerced to null by `description ||
null`) and updatedAt, and answers 200 with the returned row.  The route
performs no validation on the new name and hands it straight to the
text column; the model takes the stored string. -/
def updateProject (user : Option String) (pid : String) (newName : String)
    (desc : Option Json) (dbFail : Option String) (st : DbState) :
    DbState × Response :=
  match dbFail with
  | some _ => (st, ⟨500, .obj [("error", .str "Failed to update project")]⟩)
  | none =>
    let d := match desc with
      | none => Json.null
      | some j => if jsFalsy j then Json.null else j
    match st.projects.find? (fun p =>
        p.id == pid &&
          (match user with | some u => p.userId == u | none => false)) with
    | none => (st, ⟨404, .obj [("error", .str "Project not found")]⟩)
    | some p =>
      let p2 : Project :=
        { p with name := newName, description := d, updatedAt := st.now }
      ({ st with projects := st.projects.map (fun q =>
          if q.id == pid &&
              (match user with | some u => q.userId == u | none => false)
          then p2 else q) },
       ⟨200, .obj [("data", p2.toRow)]⟩)

/-- `DELETE /projects/:id` (`router.delete` in `project.routes.ts`):
500 with a fixed message when the storage layer throws, 404 when the
DELETE matched no row, otherwise removes the matching rows and answers
204 with an empty body. -/
def deleteProject (user : Option String) (pid : String)
    (dbFail : Option String) (st : DbState) : DbState × Response :=
  match dbFail with
  | some _ => (st, ⟨500, .obj [("error", .str "Failed to delete project")]⟩)
  | none =>
    match st.projects.find? (fun p =>
        p.id == pid &&
          (match user with | some u => p.userId == u | none => false)) with
    | none => (st, ⟨404, .obj [("error", .str "Project not found")]⟩)
    | some _ =>
      ({ st with projects := st.projects.filter (fun p =>
          !(p.id == pid &&
            (match user with | some u => p.userId == u | none => false))) },
       ⟨204, .null⟩)

/-- The spec's error envelope shape, written from the spec's words for
the refinement comparison in claim C7: a body is an envelope when its
`error` field is an object with a string `code`, a string `message` and
an object `details`. -/
def isErrorEnvelope (body : Json) : Bool :=
  match body.getField "error" with
  | some e =>
    (match e.getField "code" with | some c => c.isStr | none => false) &&
      (match e.getField "message" with | some m => m.isStr | none => false) &&
      (match e.getField "details" with | some d => d.isObj | none => false)
  | none => false

/-- The complete list of error bodies the five embedded project routes
can produce: every one is an object with a single `error` field holding
a fixed literal string, never the storage layer's exception text. -/
def errorBodies : List Json :=
  [.obj [("error", .str "Unauthorized")],
   .obj [("error", .str "Failed to fetch projects")],
   .obj [("error", .str "Project name is required")],
   .obj [("error", .str "Failed to create project")],
   .obj [("error", .str "Failed to fetch project")],
   .obj [("error", .str "Project not found")],
   .obj [("error", .str "Failed to update project")],
   .obj [("error", .str "Failed to delete project")]]

/-- What the embedded project routes actually guarantee for an error
response: a status from the set the routes use and one of the fixed
literal bodies of `errorBodies`. -/
def isProjectError (r : Response) : Prop :=
  r.status ∈ ([400, 401, 404, 500] : List Nat) ∧ r.body ∈ errorBodies

end ExpressApi

namespace Engine

/-- Searching a mapped list for a predicate the mapping preserves finds
the image of the original hit. -/
theorem find?_map_of_pres {α : Type} (p : α → Bool) (f : α → α)
    (hf : ∀ x, p (f x) = p x) (l : List α) (s : α)
    (h : l.find? p = some s) : (l.map f).find? p = some (f s) := by
  rw [List.find?_map]
  have hcomp : p ∘ f = p := by
    funext x
    exact hf x
  rw [hcomp, h]
  rfl

/-- Characterization of a successful `acceptChangeset`: on a `proposed`
change-set of an existing script the call returns exactly the state with
the one new revision consed on, the one script's content rewritten and
the one change-set flipped to `accepted`. -/
theorem acceptChangeset_eq_of_proposed (applyDiff : String → String → String)
    (st : EngineState) (cid uid : Nat) (cs : ScriptChangeSet) (s : Script)
    (hcs : st.changesets.find? (fun c => c.id == cid) = some cs)
    (hst : cs.status = .proposed)
    (hs : st.scripts.find? (fun x => x.id == cs.scriptId) = some s) :
    acceptChangeset applyDiff st cid uid =
      ({ st with
          scripts := st.scripts.map (fun x =>
            if x.id == cs.scriptId then
              { x with content := applyDiff cs.proposedDiff s.content }
            else x),
          revisions :=
            ⟨st.nextRevId, cs.scriptId, maxRevVersion st cs.scriptId + 1,
              cs.proposedDiff, uid⟩ :: st.revisions,
          changesets := st.changesets.map (fun c =>
            if c.id == cid then { c with status := .accepted } else c),
          nextRevId := st.nextRevId + 1 },
       .ok ⟨st.nextRevId, cs.scriptId, maxRevVersion st cs.scriptId + 1,
            cs.proposedDiff, uid⟩) := by
  simp only [acceptChangeset, hcs, hst, hs, if_true]

/-- `acceptChangeset` on a change-set that is not `proposed` fails and
leaves the state unchanged. -/
theorem acceptChangeset_not_proposed (applyDiff : String → String → String)
    (st : EngineState) (cid uid : Nat) (cs : ScriptChangeSet)
    (hcs : st.changesets.find? (fun c => c.id == cid) = some cs)
    (hst : cs.status ≠ .proposed) :
    acceptChangeset applyDiff st cid uid = (st, .error .invalidChangesetState) := by
  simp only [acceptChangeset, hcs, if_neg hst]

/-- `acceptChangeset` on a missing change-set fails and leaves the
state unchanged. -/
theorem acceptChangeset_missing (applyDiff : String → String → String)
    (st : EngineState) (cid uid : Nat)
    (hcs : st.changesets.find? (fun c => c.id == cid) = none) :
    acceptChangeset applyDiff st cid uid = (st, .error .invalidChangesetState) := by
  simp only [acceptChangeset, hcs]

/-- After a successful accept the target change-set reads back as
`accepted`. -/
theorem findChangeset_after_accept (applyDiff : String → String → String)
    (st : EngineState) (cid uid : Nat) (cs : ScriptChangeSet) (s : Script)
    (hcs : st.changesets.find? (fun c => c.id == cid) = some cs)
    (hst : cs.status = .proposed)
    (hs : st.scripts.find? (fun x => x.id == cs.scriptId) = some s) :
    findChangeset (acceptChangeset applyDiff st cid uid).1 cid =
      some { cs with status := .accepted } := by
  rw [acceptChangeset_eq_of_proposed applyDiff st cid uid cs s hcs hst hs]
  have hid : (cs.id == cid) = true := by simpa using List.find?_some hcs
  have := find?_map_of_pres (fun c : ScriptChangeSet => c.id == cid)
    (fun c => if c.id == cid then { c with status := CsStatus.accepted } else c)
    (fun x => by by_cases hx : (x.id == cid) = true <;> simp [hx])
    st.changesets cs hcs
  simpa [findChangeset, hid] using this

/-- After a successful accept the target script reads back with the
diff applied to its prior content. -/
theorem findScript_after_accept (applyDiff : String → String → String)
    (st : EngineState) (cid uid : Nat) (cs : ScriptChangeSet) (s : Script)
    (hcs : st.changesets.find? (fun c => c.id == cid) = some cs)
    (hst : cs.status = .proposed)
    (hs : st.scripts.find? (fun x => x.id == cs.scriptId) = some s) :
    findScript (acceptChangeset applyDiff st cid uid).1 cs.scriptId =
      some { s with content := applyDiff cs.proposedDiff s.content } := by
  rw [acceptChangeset_eq_of_proposed applyDiff st cid uid cs s hcs hst hs]
  have hid : (s.id == cs.scriptId) = true := by simpa using List.find?_some hs
  have := find?_map_of_pres (fun x : Script => x.id == cs.scriptId)
    (fun x => if x.id == cs.scriptId then
      { x with content := applyDiff cs.proposedDiff s.content } else x)
    (fun x => by by_cases hx : (x.id == cs.scriptId) = true <;> simp [hx])
    st.scripts s hs
  simpa [findScript, hid] using this

end Engine

/-- C1: for every script and every change-set of it in `proposed` state,
accept creates exactly one new revision whose version equals the
previous maximum revision version plus 1, and sets the script content to
the result of applying the proposed diff to the prior content. -/
theorem c1_accept_version_increment
    (applyDiff : String → String → String) (st : Engine.EngineState)
    (cid uid : Nat) (cs : Engine.ScriptChangeSet) (s : Engine.Script)
    (hcs : Engine.findChangeset st cid = some cs)
    (hst : cs.status = .proposed)
    (hs : Engine.findScript st cs.scriptId = some s) :
    ∃ rev : Engine.ScriptRevision,
      (Engine.acceptChangeset applyDiff st cid uid).2 = .ok rev ∧
      rev.version = Engine.maxRevVersion st cs.scriptId + 1 ∧
      (Engine.acceptChangeset applyDiff st cid uid).1.revisions =
        rev :: st.revisions ∧
      Engine.findScript (Engine.acceptChangeset applyDiff st cid uid).1
          cs.scriptId =
        some { s with content := applyDiff cs.proposedDiff s.content } := by
  refine ⟨⟨st.nextRevId, cs.scriptId, Engine.maxRevVersion st cs.scriptId + 1,
    cs.proposedDiff, uid⟩, ?_, rfl, ?_, ?_⟩
  · rw [Engine.acceptChangeset_eq_of_proposed applyDiff st cid uid cs s hcs hst hs]
  · rw [Engine.acceptChangeset_eq_of_proposed applyDiff st cid uid cs s hcs hst hs]
  · exact Engine.findScript_after_accept applyDiff st cid uid cs s hcs hst hs

/-- Closed instance of `c1_accept_version_increment` on a one-script,
one-changeset store. -/
theorem c1_accept_version_increment_witness :
    ∃ rev : Engine.ScriptRevision,
      (Engine.acceptChangeset (fun d c => c ++ d)
        ⟨[⟨1, 0, "t", "step1"⟩], [⟨4, 1, 1, "+a", 2⟩],
         [⟨7, 1, "+d", "m", 900, .proposed⟩], [], [], 5⟩ 7 3).2 = .ok rev ∧
      rev.version =
        Engine.maxRevVersion
          ⟨[⟨1, 0, "t", "step1"⟩], [⟨4, 1, 1, "+a", 2⟩],
           [⟨7, 1, "+d", "m", 900, .proposed⟩], [], [], 5⟩ 1 + 1 ∧
      (Engine.acceptChangeset (fun d c => c ++ d)
        ⟨[⟨1, 0, "t", "step1"⟩], [⟨4, 1, 1, "+a", 2⟩],
         [⟨7, 1, "+d", "m", 900, .proposed⟩], [], [], 5⟩ 7 3).1.revisions =
        rev :: [⟨4, 1, 1, "+a", 2⟩] ∧
      Engine.findScript
        (Engine.acceptChangeset (fun d c => c ++ d)
          ⟨[⟨1, 0, "t", "step1"⟩], [⟨4, 1, 1, "+a", 2⟩],
           [⟨7, 1, "+d", "m", 900, .proposed⟩], [], [], 5⟩ 7 3).1 1 =
        some ⟨1, 0, "t", "step1+d"⟩ :=
  c1_accept_version_increment (fun d c => c ++ d)
    ⟨[⟨1, 0, "t", "step1"⟩], [⟨4, 1, 1, "+a", 2⟩],
     [⟨7, 1, "+d", "m", 900, .proposed⟩], [], [], 5⟩ 7 3
    ⟨7, 1, "+d", "m", 900, .proposed⟩ ⟨1, 0, "t", "step1"⟩ rfl rfl rfl

/-- C2: the three effects of a successful accept happen together: every
call either fails and returns the store unchanged, or succeeds with the
revision recorded, the change-set flipped to accepted and the script
content rewritten, all in the one returned store. -/
theorem c2_accept_atomic (applyDiff : String → String → String)
    (st : Engine.EngineState) (cid uid : Nat) :
    (Engine.exceptOk (Engine.acceptChangeset applyDiff st cid uid).2 = false ∧
      (Engine.acceptChangeset applyDiff st cid uid).1 = st) ∨
    (∃ cs s rev,
      Engine.findChangeset st cid = some cs ∧
      cs.status = .proposed ∧
      Engine.findScript st cs.scriptId = some s ∧
      (Engine.acceptChangeset applyDiff st cid uid).2 = .ok rev ∧
      (Engine.acceptChangeset applyDiff st cid uid).1.revisions =
        rev :: st.revisions ∧
      Engine.findChangeset (Engine.acceptChangeset applyDiff st cid uid).1 cid =
        some { cs with status := .accepted } ∧
      Engine.findScript (Engine.acceptChangeset applyDiff st cid uid).1
          cs.scriptId =
        some { s with content := applyDiff cs.proposedDiff s.content }) := by
  cases hcs : st.changesets.find? (fun c => c.id == cid) with
  | none =>
    left
    rw [Engine.acceptChangeset_missing applyDiff st cid uid hcs]
    exact ⟨rfl, rfl⟩
  | some cs =>
    by_cases hst : cs.status = .proposed
    · cases hs : st.scripts.find? (fun x => x.id == cs.scriptId) with
      | none =>
        left
        constructor
        · simp only [Engine.acceptChangeset, hcs, hst, if_true, hs, Engine.exceptOk]
        · simp only [Engine.acceptChangeset, hcs, hst, if_true, hs]
      | some s =>
        right
        refine ⟨cs, s, ⟨st.nextRevId, cs.scriptId,
          Engine.maxRevVersion st cs.scriptId + 1, cs.proposedDiff, uid⟩,
          hcs, hst, hs, ?_, ?_, ?_, ?_⟩
        · rw [Engine.acceptChangeset_eq_of_proposed applyDiff st cid uid cs s hcs hst hs]
        · rw [Engine.acceptChangeset_eq_of_proposed applyDiff st cid uid cs s hcs hst hs]
        · exact Engine.findChangeset_after_accept applyDiff st cid uid cs s hcs hst hs
        · exact Engine.findScript_after_accept applyDiff st cid uid cs s hcs hst hs
    · left
      rw [Engine.acceptChangeset_not_proposed applyDiff st cid uid cs hcs hst]
      exact ⟨rfl, rfl⟩

/-- C3: once an accept has succeeded, a second accept on the same
change-set fails with InvalidChangesetState and changes nothing, so no
second revision is created; and in general accept fails with
InvalidChangesetState on any change-set that is not `proposed`. -/
theorem c3_accept_twice_fails
    (applyDiff applyDiff2 : String → String → String)
    (st : Engine.EngineState) (cid uid uid2 : Nat)
    (cs : Engine.ScriptChangeSet) (s : Engine.Script)
    (hcs : Engine.findChangeset st cid = some cs)
    (hst : cs.status = .proposed)
    (hs : Engine.findScript st cs.scriptId = some s) :
    Engine.exceptOk (Engine.acceptChangeset applyDiff st cid uid).2 = true ∧
    Engine.acceptChangeset applyDiff2
        (Engine.acceptChangeset applyDiff st cid uid).1 cid uid2 =
      ((Engine.acceptChangeset applyDiff st cid uid).1,
       .error .invalidChangesetState) ∧
    ∀ (st2 : Engine.EngineState) (cs2 : Engine.ScriptChangeSet),
      Engine.findChangeset st2 cid = some cs2 → cs2.status ≠ .proposed →
      Engine.acceptChangeset applyDiff2 st2 cid uid2 =
        (st2, .error .invalidChangesetState) := by
  refine ⟨?_, ?_, ?_⟩
  · rw [Engine.acceptChangeset_eq_of_proposed applyDiff st cid uid cs s hcs hst hs]
    rfl
  · have hacc := Engine.findChangeset_after_accept applyDiff st cid uid cs s hcs hst hs
    exact Engine.acceptChangeset_not_proposed applyDiff2 _ cid uid2 _ hacc
      (by simp)
  · intro st2 cs2 h2 hne
    exact Engine.acceptChangeset_not_proposed applyDiff2 st2 cid uid2 cs2 h2 hne

/-- Closed instance of `c3_accept_twice_fails` on a one-script,
one-changeset store. -/
theorem c3_accept_twice_fails_witness :
    Engine.exceptOk (Engine.acceptChangeset (fun d c => c ++ d)
      ⟨[⟨1, 0, "t", "step1"⟩], [], [⟨7, 1, "+d", "m", 900, .proposed⟩],
       [], [], 5⟩ 7 3).2 = true ∧
    Engine.acceptChangeset (fun d c => c ++ d)
        (Engine.acceptChangeset (fun d c => c ++ d)
          ⟨[⟨1, 0, "t", "step1"⟩], [], [⟨7, 1, "+d", "m", 900, .proposed⟩],
           [], [], 5⟩ 7 3).1 7 4 =
      ((Engine.acceptChangeset (fun d c => c ++ d)
          ⟨[⟨1, 0, "t", "step1"⟩], [], [⟨7, 1, "+d", "m", 900, .proposed⟩],
           [], [], 5⟩ 7 3).1,
       .error .invalidChangesetState) ∧
    ∀ (st2 : Engine.EngineState) (cs2 : Engine.ScriptChangeSet),
      Engine.findChangeset st2 7 = some cs2 → cs2.status ≠ .proposed →
      Engine.acceptChangeset (fun d c => c ++ d) st2 7 4 =
        (st2, .error .invalidChangesetState) :=
  c3_accept_twice_fails (fun d c => c ++ d) (fun d c => c ++ d)
    ⟨[⟨1, 0, "t", "step1"⟩], [], [⟨7, 1, "+d", "m", 900, .proposed⟩],
     [], [], 5⟩ 7 3 4
    ⟨7, 1, "+d", "m", 900, .proposed⟩ ⟨1, 0, "t", "step1"⟩ rfl rfl rfl

/-- C4: reject succeeds exactly on a `proposed` change-set, flips its
status to `rejected`, and changes nothing else: no revision is created,
the scripts, runs, insights and the other change-sets are untouched; on
a change-set in any other state (for instance after an earlier accept or
reject), and on a missing change-set, it fails with
InvalidChangesetState and leaves the store unchanged. -/
theorem c4_reject_frame (st : Engine.EngineState) (cid : Nat)
    (cs : Engine.ScriptChangeSet)
    (hcs : Engine.findChangeset st cid = some cs)
    (hst : cs.status = .proposed) :
    (Engine.rejectChangeset st cid).2 = .ok () ∧
    (Engine.rejectChangeset st cid).1.scripts = st.scripts ∧
    (Engine.rejectChangeset st cid).1.revisions = st.revisions ∧
    (Engine.rejectChangeset st cid).1.runs = st.runs ∧
    (Engine.rejectChangeset st cid).1.insights = st.insights ∧
    (Engine.rejectChangeset st cid).1.nextRevId = st.nextRevId ∧
    Engine.findChangeset (Engine.rejectChangeset st cid).1 cid =
      some { cs with status := .rejected } ∧
    (∀ c ∈ st.changesets, c.id ≠ cid →
      c ∈ (Engine.rejectChangeset st cid).1.changesets) ∧
    (∀ (st2 : Engine.EngineState) (cs2 : Engine.ScriptChangeSet),
      Engine.findChangeset st2 cid = some cs2 → cs2.status ≠ .proposed →
      Engine.rejectChangeset st2 cid = (st2, .error .invalidChangesetState)) ∧
    (∀ st2 : Engine.EngineState, Engine.findChangeset st2 cid = none →
      Engine.rejectChangeset st2 cid = (st2, .error .invalidChangesetState)) := by
  have hcs' : st.changesets.find? (fun c => c.id == cid) = some cs := hcs
  have hrej : Engine.rejectChangeset st cid =
      ({ st with
          changesets := st.changesets.map (fun c =>
            if c.id == cid then { c with status := .rejected } else c) },
       .ok ()) := by
    simp only [Engine.rejectChangeset, hcs', hst, if_true]
  refine ⟨?_, ?_, ?_, ?_, ?_, ?_, ?_, ?_, ?_, ?_⟩
  · rw [hrej]
  · rw [hrej]
  · rw [hrej]
  · rw [hrej]
  · rw [hrej]
  · rw [hrej]
  · rw [hrej]
    have hid : (cs.id == cid) = true := by simpa using List.find?_some hcs
    have := Engine.find?_map_of_pres (fun c : Engine.ScriptChangeSet => c.id == cid)
      (fun c => if c.id == cid then { c with status := Engine.CsStatus.rejected } else c)
      (fun x => by by_cases hx : (x.id == cid) = true <;> simp [hx])
      st.changesets cs hcs
    simpa [Engine.findChangeset, hid] using this
  · intro c hc hne
    rw [hrej]
    have heq : (if c.id == cid then { c with status := Engine.CsStatus.rejected } else c) = c := by
      simp [hne]
    exact heq ▸ List.mem_map_of_mem _ hc
  · intro st2 cs2 h2 hne
    simp only [Engine.findChangeset] at h2
    simp only [Engine.rejectChangeset, h2, if_neg hne]
  · intro st2 h2
    simp only [Engine.findChangeset] at h2
    simp only [Engine.rejectChangeset, h2]

/-- Closed instance of `c4_reject_frame` on a two-changeset store. -/
theorem c4_reject_frame_witness :
    (Engine.rejectChangeset
      ⟨[⟨1, 0, "t", "step1"⟩], [], [⟨7, 1, "+d", "m", 900, .proposed⟩,
        ⟨8, 1, "+e", "m", 800, .accepted⟩], [], [], 5⟩ 7).2 = .ok () ∧
    (Engine.rejectChangeset
      ⟨[⟨1, 0, "t", "step1"⟩], [], [⟨7, 1, "+d", "m", 900, .proposed⟩,
        ⟨8, 1, "+e", "m", 800, .accepted⟩], [], [], 5⟩ 7).1.scripts =
      [⟨1, 0, "t", "step1"⟩] ∧
    (Engine.rejectChangeset
      ⟨[⟨1, 0, "t", "step1"⟩], [], [⟨7, 1, "+d", "m", 900, .proposed⟩,
        ⟨8, 1, "+e", "m", 800, .accepted⟩], [], [], 5⟩ 7).1.revisions = [] ∧
    (Engine.rejectChangeset
      ⟨[⟨1, 0, "t", "step1"⟩], [], [⟨7, 1, "+d", "m", 900, .proposed⟩,
        ⟨8, 1, "+e", "m", 800, .accepted⟩], [], [], 5⟩ 7).1.runs = [] ∧
    (Engine.rejectChangeset
      ⟨[⟨1, 0, "t", "step1"⟩], [], [⟨7, 1, "+d", "m", 900, .proposed⟩,
        ⟨8, 1, "+e", "m", 800, .accepted⟩], [], [], 5⟩ 7).1.insights = [] ∧
    (Engine.rejectChangeset
      ⟨[⟨1, 0, "t", "step1"⟩], [], [⟨7, 1, "+d", "m", 900, .proposed⟩,
        ⟨8, 1, "+e", "m", 800, .accepted⟩], [], [], 5⟩ 7).1.nextRevId = 5 ∧
    Engine.findChangeset (Engine.rejectChangeset
      ⟨[⟨1, 0, "t", "step1"⟩], [], [⟨7, 1, "+d", "m", 900, .proposed⟩,
        ⟨8, 1, "+e", "m", 800, .accepted⟩], [], [], 5⟩ 7).1 7 =
      some ⟨7, 1, "+d", "m", 900, .rejected⟩ ∧
    (∀ c ∈ [⟨7, 1, "+d", "m", 900, .proposed⟩,
        (⟨8, 1, "+e", "m", 800, .accepted⟩ : Engine.ScriptChangeSet)], c.id ≠ 7 →
      c ∈ (Engine.rejectChangeset
        ⟨[⟨1, 0, "t", "step1"⟩], [], [⟨7, 1, "+d", "m", 900, .proposed⟩,
          ⟨8, 1, "+e", "m", 800, .accepted⟩], [], [], 5⟩ 7).1.changesets) ∧
    (∀ (st2 : Engine.EngineState) (cs2 : Engine.ScriptChangeSet),
      Engine.findChangeset st2 7 = some cs2 → cs2.status ≠ .proposed →
      Engine.rejectChangeset st2 7 = (st2, .error .invalidChangesetState)) ∧
    (∀ st2 : Engine.EngineState, Engine.findChangeset st2 7 = none →
      Engine.rejectChangeset st2 7 = (st2, .error .invalidChangesetState)) :=
  c4_reject_frame
    ⟨[⟨1, 0, "t", "step1"⟩], [], [⟨7, 1, "+d", "m", 900, .proposed⟩,
      ⟨8, 1, "+e", "m", 800, .accepted⟩], [], [], 5⟩ 7
    ⟨7, 1, "+d", "m", 900, .proposed⟩ rfl rfl

/-- C5: the run status state machine is queued to running to passed or
failed, with queued or running to cancelled, and nothing leaves a
terminal state: every allowed transition starts from a non-terminal
state, and cancel on a run whose status is passed, failed or cancelled
fails with InvalidRunState and leaves the store, hence the run status,
unchanged. -/
theorem c5_run_state_machine (st : Engine.EngineState) (rid : Nat)
    (r : Engine.TestRun)
    (hr : Engine.findRun st rid = some r)
    (ht : Engine.isTerminalRun r.status = true) :
    Engine.cancelRun st rid = (st, .error .invalidRunState) ∧
    (∀ s t : Engine.RunStatus,
      Engine.runStatusStep s t = true → Engine.isTerminalRun s = false) ∧
    (∀ (st2 : Engine.EngineState) (rid2 newId sid : Nat) (env brw : String),
      ∀ r2 ∈ st2.runs, r2 ∈ (Engine.startRun st2 newId sid env brw).1.runs ∧
        (Engine.rejectChangeset st2 rid2).1.runs = st2.runs) := by
  refine ⟨?_, ?_, ?_⟩
  case refine_2 =>
    intro s t h
    cases s <;> cases t <;> simp_all [Engine.runStatusStep, Engine.isTerminalRun]
  · simp only [Engine.findRun] at hr
    have hnq : ¬ (r.status = .queued ∨ r.status = .running) := by
      intro hor
      rcases hor with h | h <;> rw [h] at ht <;> simp [Engine.isTerminalRun] at ht
    simp only [Engine.cancelRun, hr, if_neg hnq]
  · intro st2 rid2 newId sid env brw r2 hr2
    constructor
    · unfold Engine.startRun
      cases st2.scripts.find? (fun s => s.id == sid) with
      | none => exact hr2
      | some s0 => exact List.mem_cons_of_mem _ hr2
    · unfold Engine.rejectChangeset
      cases h2 : st2.changesets.find? (fun c => c.id == rid2) with
      | none => rfl
      | some cs2 =>
        by_cases hp : cs2.status = Engine.CsStatus.proposed <;> simp [hp]

/-- Closed instance of `c5_run_state_machine` on a store with one
passed run. -/
theorem c5_run_state_machine_witness :
    Engine.cancelRun
      ⟨[], [], [], [⟨9, 1, "staging", "chromium", .passed⟩], [], 0⟩ 9 =
      (⟨[], [], [], [⟨9, 1, "staging", "chromium", .passed⟩], [], 0⟩,
       .error .invalidRunState) ∧
    (∀ s t : Engine.RunStatus,
      Engine.runStatusStep s t = true → Engine.isTerminalRun s = false) ∧
    (∀ (st2 : Engine.EngineState) (rid2 newId sid : Nat) (env brw : String),
      ∀ r2 ∈ st2.runs, r2 ∈ (Engine.startRun st2 newId sid env brw).1.runs ∧
        (Engine.rejectChangeset st2 rid2).1.runs = st2.runs) :=
  c5_run_state_machine
    ⟨[], [], [], [⟨9, 1, "staging", "chromium", .passed⟩], [], 0⟩ 9
    ⟨9, 1, "staging", "chromium", .passed⟩ rfl rfl

namespace Engine

/-- Every member of a list of naturals is bounded by the right fold of
`max` over it. -/
theorem le_foldr_max (l : List Nat) (x : Nat) (hx : x ∈ l) :
    x ≤ l.foldr max 0 := by
  induction l with
  | nil => cases hx
  | cons a t ih =>
    rcases List.mem_cons.mp hx with rfl | h
    · exact le_max_left _ _
    · exact le_trans (ih h) (le_max_right _ _)

/-- Consing the successor of the running maximum keeps a strictly
decreasing list strictly decreasing. -/
theorem chain'_cons_max (l : List Nat) (h : List.Chain' (· > ·) l) :
    List.Chain' (· > ·) ((l.foldr max 0 + 1) :: l) := by
  rw [List.chain'_cons']
  refine ⟨?_, h⟩
  intro y hy
  have hmem : y ∈ l := List.mem_of_mem_head? hy
  have := le_foldr_max l y hmem
  omega

/-- `reject` never touches the revision table. -/
theorem rejectChangeset_revisions (st : EngineState) (cid : Nat) :
    (rejectChangeset st cid).1.revisions = st.revisions := by
  unfold rejectChangeset
  cases h : st.changesets.find? (fun c => c.id == cid) with
  | none => rfl
  | some cs => by_cases hp : cs.status = CsStatus.proposed <;> simp [hp]

/-- `cancel` never touches the revision table. -/
theorem cancelRun_revisions (st : EngineState) (rid : Nat) :
    (cancelRun st rid).1.revisions = st.revisions := by
  unfold cancelRun
  cases h : st.runs.find? (fun r => r.id == rid) with
  | none => rfl
  | some r =>
    by_cases hp : r.status = RunStatus.queued ∨ r.status = RunStatus.running <;>
      simp [hp]

/-- `start` never touches the revision table. -/
theorem startRun_revisions (st : EngineState) (newId sid : Nat)
    (env brw : String) :
    (startRun st newId sid env brw).1.revisions = st.revisions := by
  unfold startRun
  cases h : st.scripts.find? (fun s => s.id == sid) with
  | none => rfl
  | some s => rfl

/-- The versions-per-script view after a successful accept: the target
script gains the one new top version, every other script's view is
unchanged. -/
theorem versionsFor_after_accept (applyDiff : String → String → String)
    (st : EngineState) (cid uid : Nat) (cs : ScriptChangeSet) (s : Script)
    (hcs : st.changesets.find? (fun c => c.id == cid) = some cs)
    (hst : cs.status = .proposed)
    (hs : st.scripts.find? (fun x => x.id == cs.scriptId) = some s)
    (sid : Nat) :
    versionsFor (acceptChangeset applyDiff st cid uid).1 sid =
      if cs.scriptId == sid then
        (maxRevVersion st cs.scriptId + 1) :: versionsFor st sid
      else versionsFor st sid := by
  rw [acceptChangeset_eq_of_proposed applyDiff st cid uid cs s hcs hst hs]
  by_cases h : (cs.scriptId == sid) = true <;>
    simp [versionsFor, List.filter_cons, h]

/-- The revision invariant survives any `acceptChangeset` call. -/
theorem revisionsInvariant_accept (applyDiff : String → String → String)
    (st : EngineState) (cid uid : Nat) (hinv : revisionsInvariant st) :
    revisionsInvariant (acceptChangeset applyDiff st cid uid).1 := by
  cases hcs : st.changesets.find? (fun c => c.id == cid) with
  | none =>
    rw [acceptChangeset_missing applyDiff st cid uid hcs]
    exact hinv
  | some cs =>
    by_cases hst : cs.status = CsStatus.proposed
    · cases hs : st.scripts.find? (fun x => x.id == cs.scriptId) with
      | none =>
        have heq : (acceptChangeset applyDiff st cid uid).1 = st := by
          simp only [acceptChangeset, hcs, hst, if_true, hs]
        rw [heq]
        exact hinv
      | some s =>
        intro sid2
        rw [versionsFor_after_accept applyDiff st cid uid cs s hcs hst hs sid2]
        by_cases h : (cs.scriptId == sid2) = true
        · rw [if_pos h]
          have hsid : cs.scriptId = sid2 := by simpa using h
          rw [hsid]
          exact chain'_cons_max (versionsFor st sid2) (hinv sid2)
        · rw [if_neg (by simpa using h)]
          exact hinv sid2
    · rw [acceptChangeset_not_proposed applyDiff st cid uid cs hcs hst]
      exact hinv

end Engine

/-- C6: per script the revision version numbers are strictly increasing
in creation order and never reused, and every operation of the engine
preserves the existing revisions unchanged — accept only prepends its
one new revision, and reject, cancel and start never touch the revision
table. -/
theorem c6_revision_versions (applyDiff : String → String → String)
    (st : Engine.EngineState) (cid uid rid newId sid : Nat)
    (env brw : String)
    (hinv : Engine.revisionsInvariant st) :
    Engine.revisionsInvariant (Engine.acceptChangeset applyDiff st cid uid).1 ∧
    Engine.revisionsInvariant (Engine.rejectChangeset st cid).1 ∧
    Engine.revisionsInvariant (Engine.cancelRun st rid).1 ∧
    Engine.revisionsInvariant (Engine.startRun st newId sid env brw).1 ∧
    (∃ pre, (Engine.acceptChangeset applyDiff st cid uid).1.revisions =
        pre ++ st.revisions) ∧
    (Engine.rejectChangeset st cid).1.revisions = st.revisions ∧
    (Engine.cancelRun st rid).1.revisions = st.revisions ∧
    (Engine.startRun st newId sid env brw).1.revisions = st.revisions ∧
    (∀ sid2 : Nat, (Engine.versionsFor st sid2).Pairwise (· ≠ ·)) := by
  have hrev : ∀ (st2 : Engine.EngineState),
      st2.revisions = st.revisions → Engine.revisionsInvariant st2 := by
    intro st2 h2 sid2
    have : Engine.versionsFor st2 sid2 = Engine.versionsFor st sid2 := by
      simp [Engine.versionsFor, h2]
    rw [this]
    exact hinv sid2
  refine ⟨Engine.revisionsInvariant_accept applyDiff st cid uid hinv,
    hrev _ (Engine.rejectChangeset_revisions st cid),
    hrev _ (Engine.cancelRun_revisions st rid),
    hrev _ (Engine.startRun_revisions st newId sid env brw),
    ?_,
    Engine.rejectChangeset_revisions st cid,
    Engine.cancelRun_revisions st rid,
    Engine.startRun_revisions st newId sid env brw,
    ?_⟩
  · cases hcs : st.changesets.find? (fun c => c.id == cid) with
    | none =>
      rw [Engine.acceptChangeset_missing applyDiff st cid uid hcs]
      exact ⟨[], rfl⟩
    | some cs =>
      by_cases hst : cs.status = Engine.CsStatus.proposed
      · cases hs : st.scripts.find? (fun x => x.id == cs.scriptId) with
        | none =>
          refine ⟨[], ?_⟩
          simp only [Engine.acceptChangeset, hcs, hst, if_true, hs]
          rfl
        | some s =>
          refine ⟨[⟨st.nextRevId, cs.scriptId,
            Engine.maxRevVersion st cs.scriptId + 1, cs.proposedDiff, uid⟩], ?_⟩
          rw [Engine.acceptChangeset_eq_of_proposed applyDiff st cid uid cs s hcs hst hs]
          rfl
      · rw [Engine.acceptChangeset_not_proposed applyDiff st cid uid cs hcs hst]
        exact ⟨[], rfl⟩
  · intro sid2
    have hp : (Engine.versionsFor st sid2).Pairwise (· > ·) :=
      List.chain'_iff_pairwise.mp (hinv sid2)
    exact hp.imp (fun hab => Nat.ne_of_gt hab)

/-- Closed instance of `c6_revision_versions` on a store with an
existing two-revision history. -/
theorem c6_revision_versions_witness :
    Engine.revisionsInvariant (Engine.acceptChangeset (fun d c => c ++ d)
      ⟨[⟨1, 0, "t", "s"⟩], [⟨4, 1, 2, "+b", 2⟩, ⟨3, 1, 1, "+a", 2⟩],
       [⟨7, 1, "+d", "m", 900, .proposed⟩], [], [], 5⟩ 7 3).1 ∧
    Engine.revisionsInvariant (Engine.rejectChangeset
      ⟨[⟨1, 0, "t", "s"⟩], [⟨4, 1, 2, "+b", 2⟩, ⟨3, 1, 1, "+a", 2⟩],
       [⟨7, 1, "+d", "m", 900, .proposed⟩], [], [], 5⟩ 7).1 ∧
    Engine.revisionsInvariant (Engine.cancelRun
      ⟨[⟨1, 0, "t", "s"⟩], [⟨4, 1, 2, "+b", 2⟩, ⟨3, 1, 1, "+a", 2⟩],
       [⟨7, 1, "+d", "m", 900, .proposed⟩], [], [], 5⟩ 9).1 ∧
    Engine.revisionsInvariant (Engine.startRun
      ⟨[⟨1, 0, "t", "s"⟩], [⟨4, 1, 2, "+b", 2⟩, ⟨3, 1, 1, "+a", 2⟩],
       [⟨7, 1, "+d", "m", 900, .proposed⟩], [], [], 5⟩ 11 1 "staging" "chromium").1 ∧
    (∃ pre, (Engine.acceptChangeset (fun d c => c ++ d)
      ⟨[⟨1, 0, "t", "s"⟩], [⟨4, 1, 2, "+b", 2⟩, ⟨3, 1, 1, "+a", 2⟩],
       [⟨7, 1, "+d", "m", 900, .proposed⟩], [], [], 5⟩ 7 3).1.revisions =
        pre ++ [⟨4, 1, 2, "+b", 2⟩, ⟨3, 1, 1, "+a", 2⟩]) ∧
    (Engine.rejectChangeset
      ⟨[⟨1, 0, "t", "s"⟩], [⟨4, 1, 2, "+b", 2⟩, ⟨3, 1, 1, "+a", 2⟩],
       [⟨7, 1, "+d", "m", 900, .proposed⟩], [], [], 5⟩ 7).1.revisions =
      [⟨4, 1, 2, "+b", 2⟩, ⟨3, 1, 1, "+a", 2⟩] ∧
    (Engine.cancelRun
      ⟨[⟨1, 0, "t", "s"⟩], [⟨4, 1, 2, "+b", 2⟩, ⟨3, 1, 1, "+a", 2⟩],
       [⟨7, 1, "+d", "m", 900, .proposed⟩], [], [], 5⟩ 9).1.revisions =
      [⟨4, 1, 2, "+b", 2⟩, ⟨3, 1, 1, "+a", 2⟩] ∧
    (Engine.startRun
      ⟨[⟨1, 0, "t", "s"⟩], [⟨4, 1, 2, "+b", 2⟩, ⟨3, 1, 1, "+a", 2⟩],
       [⟨7, 1, "+d", "m", 900, .proposed⟩], [], [], 5⟩ 11 1 "staging" "chromium").1.revisions =
      [⟨4, 1, 2, "+b", 2⟩, ⟨3, 1, 1, "+a", 2⟩] ∧
    (∀ sid2 : Nat, (Engine.versionsFor
      ⟨[⟨1, 0, "t", "s"⟩], [⟨4, 1, 2, "+b", 2⟩, ⟨3, 1, 1, "+a", 2⟩],
       [⟨7, 1, "+d", "m", 900, .proposed⟩], [], [], 5⟩ sid2).Pairwise (· ≠ ·)) :=
  c6_revision_versions (fun d c => c ++ d)
    ⟨[⟨1, 0, "t", "s"⟩], [⟨4, 1, 2, "+b", 2⟩, ⟨3, 1, 1, "+a", 2⟩],
     [⟨7, 1, "+d", "m", 900, .proposed⟩], [], [], 5⟩ 7 3 9 11 1 "staging" "chromium"
    (by
      intro sid2
      by_cases h1 : sid2 = 1
      · subst h1
        simp [Engine.versionsFor, List.filter, List.Chain']
      · have hb : ((1 : Nat) == sid2) = false := by
          rw [beq_eq_false_iff_ne]
          omega
        have hv : Engine.versionsFor
            ⟨[⟨1, 0, "t", "s"⟩], [⟨4, 1, 2, "+b", 2⟩, ⟨3, 1, 1, "+a", 2⟩],
             [⟨7, 1, "+d", "m", 900, .proposed⟩], [], [], 5⟩ sid2 = [] := by
          simp [Engine.versionsFor, List.filter, hb]
        rw [hv]
        exact List.chain'_nil)

/-- C9: two accept calls on the same change-set, each an atomic
compare-and-swap transaction on its status, can never both succeed: in
every serialization of the two transactions the boolean conjunction of
their success flags is false. -/
theorem c9_concurrent_accepts_exclusive
    (applyDiff1 applyDiff2 : String → String → String)
    (st : Engine.EngineState) (cid uid1 uid2 : Nat) :
    (Engine.exceptOk (Engine.acceptChangeset applyDiff1 st cid uid1).2 &&
      Engine.exceptOk (Engine.acceptChangeset applyDiff2
        (Engine.acceptChangeset applyDiff1 st cid uid1).1 cid uid2).2) = false := by
  cases hcs : st.changesets.find? (fun c => c.id == cid) with
  | none =>
    rw [Engine.acceptChangeset_missing applyDiff1 st cid uid1 hcs]
    rfl
  | some cs =>
    by_cases hst : cs.status = Engine.CsStatus.proposed
    · cases hs : st.scripts.find? (fun x => x.id == cs.scriptId) with
      | none =>
        have h1 : (Engine.acceptChangeset applyDiff1 st cid uid1).2 =
            .error .scriptNotFound := by
          simp only [Engine.acceptChangeset, hcs, hst, if_true, hs]
        rw [h1]
        rfl
      | some s =>
        have hacc := Engine.findChangeset_after_accept applyDiff1 st cid uid1 cs s hcs hst hs
        have h2 := Engine.acceptChangeset_not_proposed applyDiff2
          (Engine.acceptChangeset applyDiff1 st cid uid1).1 cid uid2 _ hacc (by simp)
        rw [h2]
        simp [Engine.exceptOk]
    · rw [Engine.acceptChangeset_not_proposed applyDiff1 st cid uid1 cs hcs hst]
      rfl

/-- C8: the read-only endpoints are pure: listing projects, fetching
one project, polling a run status, listing insights and listing scripts
leave the store they read unchanged, and repeating the same call
against the resulting store returns the same result. -/
theorem c8_get_endpoints_pure (u : Option String) (f : Option String)
    (st : ExpressApi.DbState) (pid : String)
    (est : Engine.EngineState) (rid sid pid2 : Nat) :
    (ExpressApi.getProjects u f st).1 = st ∧
    (ExpressApi.getProject u pid f st).1 = st ∧
    (Engine.runStatus est rid).1 = est ∧
    (Engine.listInsights est sid).1 = est ∧
    (Engine.listScripts est pid2).1 = est ∧
    ExpressApi.getProjects u f (ExpressApi.getProjects u f st).1 =
      ExpressApi.getProjects u f st ∧
    ExpressApi.getProject u pid f (ExpressApi.getProject u pid f st).1 =
      ExpressApi.getProject u pid f st ∧
    Engine.runStatus (Engine.runStatus est rid).1 rid =
      Engine.runStatus est rid ∧
    Engine.listInsights (Engine.listInsights est sid).1 sid =
      Engine.listInsights est sid ∧
    Engine.listScripts (Engine.listScripts est pid2).1 pid2 =
      Engine.listScripts est pid2 := by
  have hgp : (ExpressApi.getProjects u f st).1 = st := by
    unfold ExpressApi.getProjects
    cases u with
    | none => rfl
    | some v =>
      by_cases hv : (v == "") = true
      · simp [hv]
      · cases f <;> simp [hv]
  have hg1 : (ExpressApi.getProject u pid f st).1 = st := by
    unfold ExpressApi.getProject
    cases f with
    | some m => rfl
    | none =>
      cases st.projects.find? (fun p =>
          p.id == pid &&
            (match u with | some w => p.userId == w | none => false)) <;> rfl
  refine ⟨hgp, hg1, rfl, rfl, rfl, ?_, ?_, rfl, rfl, rfl⟩
  · rw [hgp]
  · rw [hg1]

/-- C7 counterexample: fetching a missing project is a domain error
(status 404), yet the Express route's response body is a bare string
under `error`, not the spec's envelope of `code`, `message` and
`details` — `isErrorEnvelope` rejects it. -/
theorem c7_envelope_counterexample :
    (ExpressApi.getProject (some "u1") "p1" none ⟨[], 0⟩).2.status = 404 ∧
    ExpressApi.isErrorEnvelope
      (ExpressApi.getProject (some "u1") "p1" none ⟨[], 0⟩).2.body = false :=
  ⟨rfl, rfl⟩


namespace ExpressApi

/-- The fixed 401 body satisfies the amended error contract. -/
theorem isProjectError_unauthorized :
    isProjectError ⟨401, .obj [("error", .str "Unauthorized")]⟩ :=
  ⟨by decide, List.Mem.head _⟩

/-- The fixed fetch-list 500 body satisfies the amended error contract. -/
theorem isProjectError_fetch_list :
    isProjectError ⟨500, .obj [("error", .str "Failed to fetch projects")]⟩ :=
  ⟨by decide, List.Mem.tail _ (List.Mem.head _)⟩

/-- The fixed 400 validation body satisfies the amended error contract. -/
theorem isProjectError_name_required :
    isProjectError ⟨400, .obj [("error", .str "Project name is required")]⟩ :=
  ⟨by decide, List.Mem.tail _ (List.Mem.tail _ (List.Mem.head _))⟩

/-- The fixed create 500 body satisfies the amended error contract. -/
theorem isProjectError_create :
    isProjectError ⟨500, .obj [("error", .str "Failed to create project")]⟩ :=
  ⟨by decide, List.Mem.tail _ (List.Mem.tail _ (List.Mem.tail _ (List.Mem.head _)))⟩

/-- The fixed fetch-one 500 body satisfies the amended error contract. -/
theorem isProjectError_fetch_one :
    isProjectError ⟨500, .obj [("error", .str "Failed to fetch project")]⟩ :=
  ⟨by decide, List.Mem.tail _ (List.Mem.tail _ (List.Mem.tail _ (List.Mem.tail _
    (List.Mem.head _))))⟩

/-- The fixed 404 body satisfies the amended error contract. -/
theorem isProjectError_not_found :
    isProjectError ⟨404, .obj [("error", .str "Project not found")]⟩ :=
  ⟨by decide, List.Mem.tail _ (List.Mem.tail _ (List.Mem.tail _ (List.Mem.tail _
    (List.Mem.tail _ (List.Mem.head _)))))⟩

/-- The fixed update 500 body satisfies the amended error contract. -/
theorem isProjectError_update :
    isProjectError ⟨500, .obj [("error", .str "Failed to update project")]⟩ :=
  ⟨by decide, List.Mem.tail _ (List.Mem.tail _ (List.Mem.tail _ (List.Mem.tail _
    (List.Mem.tail _ (List.Mem.tail _ (List.Mem.head _))))))⟩

/-- The fixed delete 500 body satisfies the amended error contract. -/
theorem isProjectError_delete :
    isProjectError ⟨500, .obj [("error", .str "Failed to delete project")]⟩ :=
  ⟨by decide, List.Mem.tail _ (List.Mem.tail _ (List.Mem.tail _ (List.Mem.tail _
    (List.Mem.tail _ (List.Mem.tail _ (List.Mem.tail _ (List.Mem.head _)))))))⟩

end ExpressApi

/-- C7 amended: every domain-error response of the five embedded
project routes (list, create, fetch one, update, delete) has a status
in the set 400, 401, 404, 500 (a subset of the spec's allowed statuses)
and a body that is one of the eight fixed literal bodies of
`errorBodies` — a flat object with a string `error` field — so the raw
storage-layer exception text (the `f` parameter) never reaches the
client; the nested envelope of `code`, `message` and `details` is not
produced. -/
theorem c7_error_responses (u : Option String) (f : Option String)
    (st : ExpressApi.DbState) (pid newId newName : String)
    (body : ExpressApi.CreateBody) (desc : Option ExpressApi.Json) :
    (400 ≤ (ExpressApi.getProjects u f st).2.status →
      ExpressApi.isProjectError (ExpressApi.getProjects u f st).2) ∧
    (400 ≤ (ExpressApi.createProject u body newId f st).2.status →
      ExpressApi.isProjectError (ExpressApi.createProject u body newId f st).2) ∧
    (400 ≤ (ExpressApi.getProject u pid f st).2.status →
      ExpressApi.isProjectError (ExpressApi.getProject u pid f st).2) ∧
    (400 ≤ (ExpressApi.updateProject u pid newName desc f st).2.status →
      ExpressApi.isProjectError
        (ExpressApi.updateProject u pid newName desc f st).2) ∧
    (400 ≤ (ExpressApi.deleteProject u pid f st).2.status →
      ExpressApi.isProjectError (ExpressApi.deleteProject u pid f st).2) := by
  refine ⟨?_, ?_, ?_, ?_, ?_⟩
  · unfold ExpressApi.getProjects
    cases u with
    | none => exact fun _ => ExpressApi.isProjectError_unauthorized
    | some v =>
      dsimp only
      by_cases hv : (v == "") = true
      · rw [if_pos hv]
        exact fun _ => ExpressApi.isProjectError_unauthorized
      · rw [if_neg hv]
        cases f with
        | some m => exact fun _ => ExpressApi.isProjectError_fetch_list
        | none =>
          intro h
          have h2 : (400 : Nat) ≤ 200 := h
          exact absurd h2 (by decide)
  · unfold ExpressApi.createProject
    cases u with
    | none => exact fun _ => ExpressApi.isProjectError_unauthorized
    | some v =>
      dsimp only
      by_cases hv : (v == "") = true
      · rw [if_pos hv]
        exact fun _ => ExpressApi.isProjectError_unauthorized
      · rw [if_neg hv]
        by_cases hn : ExpressApi.nameInvalid body.name = true
        · rw [if_pos hn]
          exact fun _ => ExpressApi.isProjectError_name_required
        · rw [if_neg hn]
          cases f with
          | some m => exact fun _ => ExpressApi.isProjectError_create
          | none =>
            intro h
            have h2 : (400 : Nat) ≤ 201 := h
            exact absurd h2 (by decide)
  · unfold ExpressApi.getProject
    cases f with
    | some m => exact fun _ => ExpressApi.isProjectError_fetch_one
    | none =>
      cases hfind : st.projects.find? (fun p =>
          p.id == pid &&
            (match u with | some w => p.userId == w | none => false)) with
      | none => exact fun _ => ExpressApi.isProjectError_not_found
      | some p =>
        intro h
        have h2 : (400 : Nat) ≤ 200 := h
        exact absurd h2 (by decide)
  · unfold ExpressApi.updateProject
    cases f with
    | some m => exact fun _ => ExpressApi.isProjectError_update
    | none =>
      dsimp only
      cases hfind : st.projects.find? (fun p =>
          p.id == pid &&
            (match u with | some w => p.userId == w | none => false)) with
      | none => exact fun _ => ExpressApi.isProjectError_not_found
      | some p =>
        intro h
        have h2 : (400 : Nat) ≤ 200 := h
        exact absurd h2 (by decide)
  · unfold ExpressApi.deleteProject
    cases f with
    | some m => exact fun _ => ExpressApi.isProjectError_delete
    | none =>
      cases hfind : st.projects.find? (fun p =>
          p.id == pid &&
            (match u with | some w => p.userId == w | none => false)) with
      | none => exact fun _ => ExpressApi.isProjectError_not_found
      | some p =>
        intro h
        have h2 : (400 : Nat) ≤ 204 := h
        exact absurd h2 (by decide)

/-- Closed instance of `c7_error_responses`: the missing-project 404
response satisfies the amended error contract. -/
theorem c7_error_responses_witness :
    ExpressApi.isProjectError
      (ExpressApi.getProject (some "u1") "p1" none ⟨[], 0⟩).2 :=
  (c7_error_responses (some "u1") none ⟨[], 0⟩ "p1" "id1" "n2" ⟨none, none⟩
    none).2.2.1 (by decide)

namespace ExpressApi

/-- A string whose character count is zero is the empty string. -/
theorem string_empty_of_length_zero (s : String) (h : s.length = 0) :
    s = "" := by
  cases s with
  | mk data =>
    cases data with
    | nil => rfl
    | cons c t => simp [String.length] at h

/-- Trimming the empty string gives the empty string. -/
theorem trim_empty : "".trim = "" := by
  unfold String.trim Substring.trim String.toSubstring
  dsimp only
  rw [Substring.takeWhileAux]
  norm_num [String.endPos, String.utf8ByteSize]
  rw [Substring.takeRightWhileAux]
  norm_num
  rfl

end ExpressApi

/-- C10: POST /projects rejects with HTTP 400 and inserts nothing
whenever the submitted name is missing, not a string, or trims to the
empty string (`nameInvalid` holds exactly then); on success the stored
project's name is the submitted name with surrounding whitespace
removed and the response is 201 with the created row. -/
theorem c10_create_project_validation (u newId s : String)
    (body : ExpressApi.CreateBody) (st : ExpressApi.DbState)
    (hu : (u == "") = false) :
    (ExpressApi.nameInvalid body.name = true →
      ExpressApi.createProject (some u) body newId none st =
        (st, ⟨400, .obj [("error", .str "Project name is required")]⟩)) ∧
    (body.name = some (.str s) → s.trim ≠ "" →
      ∃ p : ExpressApi.Project,
        ExpressApi.createProject (some u) body newId none st =
          ({ st with projects := p :: st.projects },
           ⟨201, .obj [("data", p.toRow)]⟩) ∧
        p.name = s.trim ∧ p.id = newId ∧ p.userId = u) ∧
    (body.name = none → ExpressApi.nameInvalid body.name = true) ∧
    (∀ j : ExpressApi.Json, body.name = some j → j.isStr = false →
      ExpressApi.nameInvalid body.name = true) ∧
    (body.name = some (.str s) → s.trim = "" →
      ExpressApi.nameInvalid body.name = true) := by
  have hv : ¬ ((u == "") = true) := by
    rw [hu]
    exact Bool.false_ne_true
  refine ⟨?_, ?_, ?_, ?_, ?_⟩
  · intro hn
    unfold ExpressApi.createProject
    dsimp only
    rw [if_neg hv, if_pos hn]
  · intro hname hs
    have h1 : (s.trim.length == 0) = false := by
      rw [beq_eq_false_iff_ne]
      intro hl
      exact hs (ExpressApi.string_empty_of_length_zero _ hl)
    have h2 : (s == "") = false := by
      rw [beq_eq_false_iff_ne]
      intro he
      apply hs
      rw [he]
      exact ExpressApi.trim_empty
    have hn : ExpressApi.nameInvalid body.name = false := by
      rw [hname]
      simp [ExpressApi.nameInvalid, ExpressApi.jsFalsy, ExpressApi.Json.isStr,
        h1, h2]
    refine ⟨⟨newId, s.trim,
      (match body.description with
       | none => ExpressApi.Json.null
       | some d => if ExpressApi.jsFalsy d then ExpressApi.Json.null else d),
      u, st.now, st.now⟩, ?_, rfl, rfl, rfl⟩
    unfold ExpressApi.createProject
    dsimp only
    rw [if_neg hv, if_neg (by rw [hn]; exact Bool.false_ne_true), hname]
  · intro hname
    rw [hname]
    rfl
  · intro j hname hj
    rw [hname]
    cases j <;> simp_all [ExpressApi.nameInvalid, ExpressApi.Json.isStr]
  · intro hname htrim
    rw [hname]
    simp [ExpressApi.nameInvalid, htrim]

/-- Closed instance of `c10_create_project_validation` on a name that
needs trimming. -/
theorem c10_create_project_validation_witness :
    (ExpressApi.nameInvalid (some (.str "  My Project  ")) = true →
      ExpressApi.createProject (some "alice")
          ⟨some (.str "  My Project  "), none⟩ "id1" none ⟨[], 7⟩ =
        (⟨[], 7⟩, ⟨400, .obj [("error", .str "Project name is required")]⟩)) ∧
    ((some (.str "  My Project  ") : Option ExpressApi.Json) =
        some (.str "  My Project  ") →
      ("  My Project  " : String).trim ≠ "" →
      ∃ p : ExpressApi.Project,
        ExpressApi.createProject (some "alice")
            ⟨some (.str "  My Project  "), none⟩ "id1" none ⟨[], 7⟩ =
          ({ projects := p :: [], now := 7 },
           ⟨201, .obj [("data", p.toRow)]⟩) ∧
        p.name = ("  My Project  " : String).trim ∧ p.id = "id1" ∧
        p.userId = "alice") ∧
    ((some (.str "  My Project  ") : Option ExpressApi.Json) = none →
      ExpressApi.nameInvalid (some (.str "  My Project  ")) = true) ∧
    (∀ j : ExpressApi.Json,
      (some (.str "  My Project  ") : Option ExpressApi.Json) = some j →
      j.isStr = false →
      ExpressApi.nameInvalid (some (.str "  My Project  ")) = true) ∧
    ((some (.str "  My Project  ") : Option ExpressApi.Json) =
        some (.str "  My Project  ") →
      ("  My Project  " : String).trim = "" →
      ExpressApi.nameInvalid (some (.str "  My Project  ")) = true) :=
  c10_create_project_validation "alice" "id1" "  My Project  "
    ⟨some (.str "  My Project  "), none⟩ ⟨[], 7⟩ rfl
